import Mathlib

set_option maxRecDepth 100000

set_option maxHeartbeats 2000000

/-!
Verification of the QR code generator against its specification.

The definitions below are a shallow embedding of the Python sources of the
repository (src/qr/QRCodeInputAnalyzer.py, src/qr/QRCodeEncoder.py,
src/qr/error/QRErrorCorrectionLevel.py, src/qr/error/utils/QRCodePolynomial.py,
src/qr/QRCodeImage.py).  Strings are modelled as lists of Unicode code points,
byte strings of 0/1 characters as lists of booleans (most significant bit
first), Python exceptions as an explicit error type, and the module matrix as a
list of rows of sentinel integers exactly as in the source (1 dark, 0 light,
2 reserved, 9 available).
-/

/-- Bits of a natural number below 2 to the fuel, most significant first;
empty for zero.  The fuel only bounds the recursion depth: n itself is always
a sufficient fuel.  Mirrors the digits produced by the Python builtin bin
after the 0b prefix. -/
def natBitsAux : Nat → Nat → List Bool
  | 0, _ => []
  | fuel + 1, n => if n = 0 then [] else natBitsAux fuel (n / 2) ++ [n % 2 == 1]

/-- Python bin(n) without the 0b prefix: bin(0) gives the single digit 0. -/
def pyBin (n : Nat) : List Bool := if n = 0 then [false] else natBitsAux n n

/-- Hexadecimal digit values, most significant first; empty for zero, fuel
bounded as in natBitsAux.  Mirrors Python hex after the 0x prefix. -/
def hexDigitsAux : Nat → Nat → List Nat
  | 0, _ => []
  | fuel + 1, n => if n = 0 then [] else hexDigitsAux fuel (n / 16) ++ [n % 16]

/-- Python hex(n) without the 0x prefix: hex(0) gives the single digit 0. -/
def pyHex (n : Nat) : List Nat := if n = 0 then [0] else hexDigitsAux n n

/-- Python str.zfill on a 0/1 string: left pad with zero bits to width k. -/
def zfill (k : Nat) (l : List Bool) : List Bool :=
  List.replicate (k - l.length) false ++ l

/-- Modelled library function: Python str.upper on one code point, restricted
to the ASCII case mapping (identity elsewhere).  All inputs exercised by the
claims are covered by this restriction. -/
def upperChar (c : Nat) : Nat := if 97 ≤ c ∧ c ≤ 122 then c - 32 else c

/-- Modelled library function: Python str.isdigit on one code point,
restricted to the ASCII decimal digits.  All inputs exercised by the claims
are covered by this restriction. -/
def isDigitChar (c : Nat) : Bool := 48 ≤ c && c ≤ 57

/-- QRCodeAnalyzer.is_numeric: every character is a decimal digit. -/
def isNumeric (s : List Nat) : Bool := s.all isDigitChar

/-- Code points of the literal in QRCodeAnalyzer.is_alphanumeric, in source
order: the digits, the uppercase letters, then the characters
number sign, percent, asterisk, plus, hyphen, period, slash, semicolon,
colon and space. -/
def analyzerAlphanumericChars : List Nat :=
  ((List.range 10).map (fun d => 48 + d)) ++ ((List.range 26).map (fun l => 65 + l)) ++
    [35, 37, 42, 43, 45, 46, 47, 59, 58, 32]

/-- QRCodeAnalyzer.is_alphanumeric: uppercase the input, then require every
character to be in the literal character set of the source. -/
def isAlphanumeric (s : List Nat) : Bool :=
  s.all (fun c => analyzerAlphanumericChars.contains (upperChar c))

/-- QRCodeAnalyzer.is_byte: every ordinal lies in range(32, 127). -/
def isByte (s : List Nat) : Bool := s.all (fun c => 32 ≤ c && c < 127)

/-- Modelled library function: Python str.encode with the shift-jis codec for
one code point.  Covers the ASCII passthrough range and the kanji code points
exercised by the repository tests; undefined (None) for every other code
point, such as the euro sign U+20AC, which the real codec cannot encode. -/
def sjisEncodeChar (c : Nat) : Option (List Nat) :=
  if c < 128 then some [c]
  else if c = 0x70B9 then some [0x93, 0x5F]
  else if c = 0x3053 then some [0x82, 0xB1]
  else if c = 0x3093 then some [0x82, 0xF1]
  else if c = 0x306B then some [0x82, 0xC9]
  else if c = 0x3061 then some [0x82, 0xBF]
  else if c = 0x306F then some [0x82, 0xCD]
  else none

/-- Modelled library function: Python str.encode with the shift-jis codec;
None models the UnicodeEncodeError raised for unencodable input. -/
def sjisEncode (s : List Nat) : Option (List Nat) :=
  (s.mapM sjisEncodeChar).map List.flatten

/-- Python exceptions surfaced by the embedded code paths. -/
inductive PyError where
  | valueError
  | typeError
  | unicodeEncodeError
deriving DecidableEq

/-- Result values of QRCodeAnalyzer.analyse. -/
inductive EncMode where
  | numeric
  | alphanumeric
  | byteMode
  | kanji
  | unknown
deriving DecidableEq

/-- Index loop of QRCodeAnalyzer.is_kanji, one step per character index; the
first argument counts the remaining indices. -/
def isKanjiGo (bytes : List Nat) : Nat → Nat → Bool → Bool
  | 0, _, _ => true
  | remaining + 1, index, parity =>
    let b := bytes.getD index 0
    if index % 2 = 0 then
      if ¬((0x81 ≤ b ∧ b ≤ 0x9F) ∨ (0xE0 ≤ b ∧ b ≤ 0xEF)) then false
      else isKanjiGo bytes remaining (index + 1) (b % 2 = 0)
    else
      if parity ∧ ¬(0x9F ≤ b ∧ b ≤ 0xFC) then false
      else if (¬parity) ∧ (¬(0x40 ≤ b ∧ b ≤ 0x9E) ∨ b = 0x7F) then false
      else isKanjiGo bytes remaining (index + 1) parity

/-- Loop body of QRCodeAnalyzer.is_kanji: iterate index over the length of the
input string (not of the byte string), tracking the parity flag of the most
recent even position, with the range checks of the source; afterwards require
the byte string length to be even. -/
def isKanjiCheck (strLen : Nat) (bytes : List Nat) : Bool :=
  isKanjiGo bytes strLen 0 false && (bytes.length % 2 == 0)

/-- QRCodeAnalyzer.is_kanji: encode to shift-jis (which may raise), then run
the byte range checks. -/
def isKanji (s : List Nat) : Except PyError Bool :=
  match sjisEncode s with
  | none => .error .unicodeEncodeError
  | some bytes => .ok (isKanjiCheck s.length bytes)

/-- QRCodeAnalyzer.analyse: try is_numeric, is_alphanumeric, is_byte, is_kanji
in order; the Unknown fallback corresponds to the source returning the string
Unknown.  The error case models the exception that escapes from is_kanji. -/
def analyse (s : List Nat) : Except PyError EncMode :=
  if isNumeric s then .ok .numeric
  else if isAlphanumeric s then .ok .alphanumeric
  else if isByte s then .ok .byteMode
  else match isKanji s with
    | .error e => .error e
    | .ok true => .ok .kanji
    | .ok false => .ok .unknown

/-- Mode indicator 0001 from QRCodeEncoder.get_mode_indicator. -/
def modeIndicatorNumeric : List Bool := [false, false, false, true]

/-- Mode indicator 0010 from QRCodeEncoder.get_mode_indicator. -/
def modeIndicatorAlphanumeric : List Bool := [false, false, true, false]

/-- Mode indicator 0100 from QRCodeEncoder.get_mode_indicator. -/
def modeIndicatorByte : List Bool := [false, true, false, false]

/-- Mode indicator 1000 from QRCodeEncoder.get_mode_indicator. -/
def modeIndicatorKanji : List Bool := [true, false, false, false]

/-- Python int on a decimal digit string (leading zeros allowed). -/
def digitsToNat (g : List Nat) : Nat := g.foldl (fun acc c => 10 * acc + (c - 48)) 0

/-- Data portion of QRCodeEncoder.encode_numeric: the while loop over groups
of three digits, padding a full group to 10 bits, a pair to 7, a single to 4. -/
def numericBody : List Nat → List Bool
  | [] => []
  | [a] =>
    let bits := pyBin (digitsToNat [a])
    List.replicate (4 - bits.length) false ++ bits
  | [a, b] =>
    let bits := pyBin (digitsToNat [a, b])
    List.replicate (7 - bits.length) false ++ bits
  | a :: b :: c :: rest =>
    let bits := pyBin (digitsToNat [a, b, c])
    (List.replicate (10 - bits.length) false ++ bits) ++ numericBody rest

/-- Character count field of QRCodeEncoder.encode_numeric: the source pads
with 0 repeated (10 - len(bin(count))) times, where len counts the two
characters of the 0b prefix as well. -/
def numericCountField (count : Nat) : List Bool :=
  List.replicate (10 - ((pyBin count).length + 2)) false ++ pyBin count

/-- QRCodeEncoder.encode_numeric: mode indicator, count field, digit groups. -/
def encodeNumeric (s : List Nat) : List Bool :=
  modeIndicatorNumeric ++ numericCountField s.length ++ numericBody s

/-- QRCodeEncoder.get_encode_decode_table_alphanumeric: uppercase the
character, then look it up in the 45 entry table (which contains the dollar
sign but neither the number sign nor the semicolon); None when absent. -/
def encodeDecodeTableAlphanumeric (c : Nat) : Option Nat :=
  let u := upperChar c
  if 48 ≤ u ∧ u ≤ 57 then some (u - 48)
  else if 65 ≤ u ∧ u ≤ 90 then some (u - 55)
  else if u = 32 then some 36
  else if u = 36 then some 37
  else if u = 37 then some 38
  else if u = 42 then some 39
  else if u = 43 then some 40
  else if u = 45 then some 41
  else if u = 46 then some 42
  else if u = 47 then some 43
  else if u = 58 then some 44
  else none

/-- QRCodeEncoder.encode_alphanumeric: the while loop over groups of two
characters; a pair encodes first times 45 plus second in 11 bits, a trailing
single character in 6 bits.  A table miss makes the source evaluate bin of
None, raising a TypeError; the result carries no mode or count indicator. -/
def encodeAlphanumeric (s : List Nat) : Except PyError (List Bool) :=
  match s with
  | [] => .ok []
  | [a] =>
    match encodeDecodeTableAlphanumeric a with
    | some va => .ok (zfill 6 (pyBin va))
    | none => .error .typeError
  | a :: b :: rest =>
    match encodeDecodeTableAlphanumeric a, encodeDecodeTableAlphanumeric b with
    | some va, some vb =>
      (encodeAlphanumeric rest).map (fun d => zfill 11 (pyBin (va * 45 + vb)) ++ d)
    | _, _ => .error .typeError

/-- Data portion of QRCodeEncoder.encode_bytes: each ordinal as 8 bits. -/
def byteBody (s : List Nat) : List Bool := s.flatMap (fun c => zfill 8 (pyBin c))

/-- QRCodeEncoder.encode_bytes: mode indicator, then bin(8) zero filled to
8 bits (the source encodes the count indicator width itself, not the count),
then the unpadded binary length, then the data bits. -/
def encodeBytes (s : List Nat) : List Bool :=
  modeIndicatorByte ++ zfill 8 (pyBin 8) ++ pyBin s.length ++ byteBody s

/-- Python int(hexdigits[a:b], 16): the value of a slice of hexadecimal digit
values; an empty slice raises ValueError, as int of an empty string does. -/
def intFromHexSlice (l : List Nat) (a b : Nat) : Except PyError Nat :=
  let sl := (l.drop a).take (b - a)
  if sl.isEmpty then .error .valueError
  else .ok (sl.foldl (fun acc d => 16 * acc + d) 0)

/-- Per pair body of QRCodeEncoder.encode_kanji: range check the 16 bit value,
subtract the base (0x8140 or 0xC040 as in the source), split the difference
through its hexadecimal string representation into the first two and the next
two digits, combine as msb times 0xC0 plus lsb, zero fill to 13 bits. -/
def encodeKanjiPair (hexBytes : Nat) : Except PyError (List Bool) := do
  if ¬((0x8140 ≤ hexBytes ∧ hexBytes ≤ 0x9FFC) ∨ (0xE040 ≤ hexBytes ∧ hexBytes ≤ 0xEBBF)) then
    throw .valueError
  let intermediateSub :=
    if 0x8140 ≤ hexBytes ∧ hexBytes ≤ 0x9FFC then pyHex (hexBytes - 0x8140)
    else pyHex (hexBytes - 0xC040)
  let msb ← intFromHexSlice intermediateSub 0 2
  let lsb ← intFromHexSlice intermediateSub 2 4
  return zfill 13 (pyBin (msb * 0xC0 + lsb))

/-- The 16 bit values of consecutive byte pairs, as produced by slicing two
bytes at a time and reading the slice as a hexadecimal number; a trailing
lone byte yields its own value (unreachable after the even length guard). -/
def pairsOf : List Nat → List Nat
  | b0 :: b1 :: rest => (256 * b0 + b1) :: pairsOf rest
  | [b0] => [b0]
  | [] => []

/-- Pair loop of QRCodeEncoder.encode_kanji over the pair values. -/
def kanjiGroups : List Nat → Except PyError (List Bool)
  | [] => .ok []
  | v :: rest => do
    let cur ← encodeKanjiPair v
    let tl ← kanjiGroups rest
    return cur ++ tl

/-- QRCodeEncoder.encode_kanji: reject odd byte length, encode each pair, and
prefix with bin(8) (the unpadded width constant) followed by the mode
indicator, in that order as in the source return statement. -/
def encodeKanji (bytes : List Nat) : Except PyError (List Bool) := do
  if bytes.length % 2 = 1 then throw .valueError
  let d ← kanjiGroups (pairsOf bytes)
  return pyBin 8 ++ modeIndicatorKanji ++ d

/-- QRCodeEncoder.encode_data_into_bit_stream: classify, then dispatch to the
mode encoder; unknown input raises ValueError.  The kanji branch encodes the
input string to shift-jis bytes first. -/
def encodeDataIntoBitStream (s : List Nat) : Except PyError (List Bool) := do
  match ← analyse s with
  | .numeric => return encodeNumeric s
  | .alphanumeric => encodeAlphanumeric s
  | .byteMode => return encodeBytes s
  | .kanji =>
    match sjisEncode s with
    | some bytes => encodeKanji bytes
    | none => throw .unicodeEncodeError
  | .unknown => throw .valueError

/-- The four error correction levels of QRErrorCorrectionLevel. -/
inductive ECLevel where
  | L
  | M
  | Q
  | H
deriving DecidableEq

/-- QRErrorCorrectionLevel.get_number_of_data_codewords: the codeword_map
dictionary of the source, one row per version 1 to 40. -/
def getNumberOfDataCodewords (version : Nat) (level : ECLevel) : Nat :=
  let row : Nat × Nat × Nat × Nat :=
    match version with
    | 1 => (55, 44, 34, 26) | 2 => (55, 44, 34, 26) | 3 => (55, 44, 34, 26)
    | 4 => (80, 64, 48, 36) | 5 => (108, 86, 62, 46) | 6 => (136, 108, 76, 60)
    | 7 => (156, 124, 88, 66) | 8 => (194, 154, 110, 86) | 9 => (232, 182, 132, 100)
    | 10 => (274, 216, 154, 122) | 11 => (324, 254, 180, 140) | 12 => (370, 290, 206, 158)
    | 13 => (428, 334, 244, 180) | 14 => (461, 365, 261, 197) | 15 => (523, 415, 295, 223)
    | 16 => (589, 453, 325, 253) | 17 => (647, 507, 367, 283) | 18 => (721, 563, 397, 313)
    | 19 => (795, 627, 445, 341) | 20 => (861, 669, 485, 385) | 21 => (932, 714, 512, 406)
    | 22 => (1006, 782, 568, 442) | 23 => (1094, 860, 614, 464) | 24 => (1174, 914, 664, 514)
    | 25 => (1276, 1000, 718, 538) | 26 => (1370, 1062, 754, 596) | 27 => (1468, 1128, 808, 628)
    | 28 => (1531, 1193, 871, 661) | 29 => (1631, 1267, 911, 701) | 30 => (1735, 1373, 985, 745)
    | 31 => (1843, 1455, 1033, 793) | 32 => (1955, 1541, 1115, 845) | 33 => (2071, 1631, 1171, 901)
    | 34 => (2191, 1725, 1231, 961) | 35 => (2306, 1812, 1286, 986) | 36 => (2434, 1914, 1354, 1054)
    | 37 => (2566, 1992, 1426, 1096) | 38 => (2702, 2102, 1502, 1142) | 39 => (2812, 2216, 1582, 1222)
    | 40 => (2956, 2334, 1666, 1276) | _ => (0, 0, 0, 0)
  match level with
  | .L => row.1
  | .M => row.2.1
  | .Q => row.2.2.1
  | .H => row.2.2.2

/-- QRErrorCorrectionLevel.get_numbers_of_bits_per_codewords: data codewords
times 8. -/
def getNumbersOfBitsPerCodewords (version : Nat) (level : ECLevel) : Nat :=
  8 * getNumberOfDataCodewords version level

/-- Pad codeword 11101100 of QRCodeEncoder. -/
def padCodeword0 : List Bool := [true, true, true, false, true, true, false, false]

/-- Pad codeword 00010001 of QRCodeEncoder. -/
def padCodeword1 : List Bool := [false, false, false, true, false, false, false, true]

/-- Pad codeword while loop of QRCodeEncoder.add_terminator_and_padding:
append the two pad codewords alternately while the length is below cap.  The
fuel only bounds the iteration count; since every iteration appends 8 bits, a
fuel of cap can never be exhausted before the loop condition fails. -/
def padLoopAux (cap : Nat) : Nat → List Bool → Nat → List Bool
  | 0, s, _ => s
  | fuel + 1, s, counter =>
    if s.length < cap then
      padLoopAux cap fuel
        (s ++ (if counter % 2 = 0 then padCodeword0 else padCodeword1)) (counter + 1)
    else s

/-- The pad codeword loop with its always sufficient fuel. -/
def padLoop (cap : Nat) (s : List Bool) (counter : Nat) : List Bool :=
  padLoopAux cap cap s counter

/-- The private terminator and padding method of QRCodeEncoder: terminator
zeros only when the gap to capacity is between 1 and 4, then zeros making the
length a strictly larger multiple of 8, then the pad codeword loop. -/
def addTerminatorAndPadding (version : Nat) (level : ECLevel) (s : List Bool) : List Bool :=
  let cap := getNumbersOfBitsPerCodewords version level
  let remainderOfZeroes : Int := (cap : Int) - s.length
  let s1 := if 0 < remainderOfZeroes ∧ remainderOfZeroes ≤ 4 then
      s ++ List.replicate remainderOfZeroes.toNat false
    else s
  let s2 := s1 ++ List.replicate (8 - s1.length % 8) false
  padLoop cap s2 0

/-- AlphaOperations.initialize_log_table body: starting from value 1, record
the value at each exponent, double, and reduce with the primitive polynomial
285 whenever the running value reaches 256. -/
def logTableAux : Nat → Nat → List Nat
  | 0, _ => []
  | n + 1, v =>
    v :: logTableAux n (let w := v <<< 1; if w ≥ 256 then w ^^^ 285 else w)

/-- The log table dictionary of AlphaOperations, indices 0 to 255,
materialized as a literal; the theorem logTableConstruction below proves it
equal to the table built by the initialization loop of the source. -/
def logTable : List Nat :=
  [ 1, 2, 4, 8, 16, 32, 64, 128, 29, 58, 116, 232, 205, 135, 19, 38, 76, 152, 45, 90, 180, 117,
   234, 201, 143, 3, 6, 12, 24, 48, 96, 192, 157, 39, 78, 156, 37, 74, 148, 53, 106, 212, 181,
   119, 238, 193, 159, 35, 70, 140, 5, 10, 20, 40, 80, 160, 93, 186, 105, 210, 185, 111, 222, 161,
   95, 190, 97, 194, 153, 47, 94, 188, 101, 202, 137, 15, 30, 60, 120, 240, 253, 231, 211, 187,
   107, 214, 177, 127, 254, 225, 223, 163, 91, 182, 113, 226, 217, 175, 67, 134, 17, 34, 68, 136,
   13, 26, 52, 104, 208, 189, 103, 206, 129, 31, 62, 124, 248, 237, 199, 147, 59, 118, 236, 197,
   151, 51, 102, 204, 133, 23, 46, 92, 184, 109, 218, 169, 79, 158, 33, 66, 132, 21, 42, 84, 168,
   77, 154, 41, 82, 164, 85, 170, 73, 146, 57, 114, 228, 213, 183, 115, 230, 209, 191, 99, 198,
   145, 63, 126, 252, 229, 215, 179, 123, 246, 241, 255, 227, 219, 171, 75, 150, 49, 98, 196, 149,
   55, 110, 220, 165, 87, 174, 65, 130, 25, 50, 100, 200, 141, 7, 14, 28, 56, 112, 224, 221, 167,
   83, 166, 81, 162, 89, 178, 121, 242, 249, 239, 195, 155, 43, 86, 172, 69, 138, 9, 18, 36, 72,
   144, 61, 122, 244, 245, 247, 243, 251, 235, 203, 139, 11, 22, 44, 88, 176, 125, 250, 233, 207,
   131, 27, 54, 108, 216, 173, 71, 142, 1]

/-- The log table literal above is exactly the table the source constructs. -/
theorem logTableConstruction : logTable = logTableAux 256 1 := by decide

/-- AlphaOperations.get_log_from_alpha: table lookup of an exponent. -/
def getLogFromAlpha (e : Nat) : Nat := logTable.getD e 0

/-- The inversion loop of AlphaOperations.initialize_antilog_table: 0 maps to
0; otherwise invert the log table, a later index overwriting an earlier one
(hence the reversed search), with the entry for value 1 fixed to exponent 0. -/
def antilogSearch (v : Nat) : Nat :=
  if v = 0 then 0
  else if v = 1 then 0
  else ((logTable.enum.reverse.find? (fun p => p.2 = v)).map Prod.fst).getD 256

/-- The antilog table dictionary of AlphaOperations, materialized as a
literal; the theorem antilogAgrees below proves every entry equal to the
inversion the source computes. -/
def antilogTable : List Nat :=
  [ 0, 0, 1, 25, 2, 50, 26, 198, 3, 223, 51, 238, 27, 104, 199, 75, 4, 100, 224, 14, 52, 141, 239,
   129, 28, 193, 105, 248, 200, 8, 76, 113, 5, 138, 101, 47, 225, 36, 15, 33, 53, 147, 142, 218,
   240, 18, 130, 69, 29, 181, 194, 125, 106, 39, 249, 185, 201, 154, 9, 120, 77, 228, 114, 166, 6,
   191, 139, 98, 102, 221, 48, 253, 226, 152, 37, 179, 16, 145, 34, 136, 54, 208, 148, 206, 143,
   150, 219, 189, 241, 210, 19, 92, 131, 56, 70, 64, 30, 66, 182, 163, 195, 72, 126, 110, 107, 58,
   40, 84, 250, 133, 186, 61, 202, 94, 155, 159, 10, 21, 121, 43, 78, 212, 229, 172, 115, 243,
   167, 87, 7, 112, 192, 247, 140, 128, 99, 13, 103, 74, 222, 237, 49, 197, 254, 24, 227, 165,
   153, 119, 38, 184, 180, 124, 17, 68, 146, 217, 35, 32, 137, 46, 55, 63, 209, 91, 149, 188, 207,
   205, 144, 135, 151, 178, 220, 252, 190, 97, 242, 86, 211, 171, 20, 42, 93, 158, 132, 60, 57,
   83, 71, 109, 65, 162, 31, 45, 67, 216, 183, 123, 164, 118, 196, 23, 73, 236, 127, 12, 111, 246,
   108, 161, 59, 82, 41, 157, 85, 170, 251, 96, 134, 177, 187, 204, 62, 90, 203, 89, 95, 176, 156,
   169, 160, 81, 11, 245, 22, 235, 122, 117, 44, 215, 79, 174, 213, 233, 230, 231, 173, 232, 116,
   214, 244, 234, 168, 80, 88, 175]


/-- AlphaOperations.get_antilog_from_alpha: 0 maps to 0, otherwise a lookup
in the antilog table (values above 255 never reach the lookup). -/
def getAntilogFromAlpha (v : Nat) : Nat :=
  if v = 0 then 0 else antilogTable.getD v 256

/-- The antilog lookup agrees with the inversion loop of the source on the
whole relevant range. -/
theorem antilogAgrees : ∀ v, v < 256 → getAntilogFromAlpha v = antilogSearch v := by
  decide

/-- Normalization in the Alpha constructor: exponents strictly above 255 are
replaced by remainder modulo 256 plus quotient by 256. -/
def alphaNormalize (e : Nat) : Nat := if e > 255 then e % 256 + e / 256 else e

/-- Normalization step inside calculate_alpha_coefficient_sum: applied to
exponents that are not strictly below 255. -/
def calcNormalize (e : Nat) : Nat := if e < 255 then e else e % 256 + e / 256

/-- PolynomialOperations.calculate_alpha_coefficient_sum: normalize each
exponent; a single exponent is returned as is; otherwise convert each to its
integer value through the log table, fold with xor (renormalizing a running
value of 256 or more before each xor), and convert back with the antilog. -/
def calculateAlphaCoefficientSum (l : List Nat) : Nat :=
  match l.map calcNormalize with
  | [] => 0
  | [e] => e
  | e :: rest =>
    let ints := (e :: rest).map getLogFromAlpha
    let r := ints.tail.foldl (fun acc x =>
        (if acc ≥ 256 then acc % 256 + acc / 256 else acc) ^^^ x) (ints.headD 0)
    getAntilogFromAlpha r

/-- The defaultdict of PolynomialOperations.multiply: group the second
components by the first component, keys kept in first insertion order and
values in arrival order. -/
def groupInsFold (l : List (Nat × Nat)) : List (Nat × List Nat) :=
  l.foldl (fun acc p =>
    if acc.any (fun q => q.1 = p.1) then
      acc.map (fun q => if q.1 = p.1 then (q.1, q.2 ++ [p.2]) else q)
    else acc ++ [(p.1, [p.2])]) []

/-- PolynomialOperations.multiply on alpha polynomials, each represented as a
list of terms (alpha exponent, x exponent): every term pair contributes the
sums of both exponents; contributions are grouped by x exponent in insertion
order and combined by calculate_alpha_coefficient_sum, then renormalized by
the Alpha constructor. -/
def pmultiply (p1 p2 : List (Nat × Nat)) : List (Nat × Nat) :=
  let pairs := p1.flatMap (fun t1 => p2.map (fun t2 => (t1.2 + t2.2, t1.1 + t2.1)))
  (groupInsFold pairs).map (fun g => (alphaNormalize (calculateAlphaCoefficientSum g.2), g.1))

/-- The loop of PolynomialOperations.generate_generator_polynomial: starting
from polynomial p, multiply k successive factors x plus alpha to the i,
with i counting up from the given start index. -/
def genSteps (p : List (Nat × Nat)) (i : Nat) : Nat → List (Nat × Nat)
  | 0 => p
  | k + 1 => genSteps (pmultiply p [(0, 1), (alphaNormalize i, 0)]) (i + 1) k

/-- PolynomialOperations.generate_generator_polynomial: seed with x plus 1 in
alpha form, then run the loop for i from 1 while i is below n. -/
def generateGeneratorPolynomial (n : Nat) : List (Nat × Nat) :=
  genSteps [(0, 1), (0, 0)] 1 (n - 1)

/-- PolynomialOperations.convert_int_to_alpha on a term list (integer
coefficient, x exponent): antilog of each coefficient, wrapped by the Alpha
constructor. -/
def convertIntToAlpha (p : List (Nat × Nat)) : List (Nat × Nat) :=
  p.map (fun t => (alphaNormalize (getAntilogFromAlpha t.1), t.2))

/-- PolynomialOperations.convert_alpha_to_int on a term list (alpha exponent,
x exponent): log table value of each exponent. -/
def convertAlphaToInt (p : List (Nat × Nat)) : List (Nat × Nat) :=
  p.map (fun t => (getLogFromAlpha t.1, t.2))

/-- PolynomialOperations.xor_int: walk both term lists by index, xor the
coefficients of the terms at the same position keeping the x exponent of the
first list and dropping the term when the xor is zero, then append whatever
remains of the longer list unchanged. -/
def xorInt : List (Nat × Nat) → List (Nat × Nat) → List (Nat × Nat)
  | [], rest => rest
  | t :: t1, [] => t :: t1
  | (c1, x1) :: t1, (c2, x2) :: t2 =>
    let c := c1 ^^^ c2
    if c > 0 then (c, x1) :: xorInt t1 t2 else xorInt t1 t2

/-- Coefficient of a term list at a given x exponent: the coefficient of the
first term carrying that exponent, and 0 when no term does. -/
def coeffAt (p : List (Nat × Nat)) (x : Nat) : Nat :=
  ((p.find? (fun t => t.2 = x)).map Prod.fst).getD 0

/-- Reference doubling step in GF(256) with primitive polynomial 285, written
from the specification of the field, independent of the embedded tables. -/
def xtime (a : Nat) : Nat := let b := a <<< 1; if b ≥ 256 then b ^^^ 285 else b

/-- Reference multiplication in GF(256) by shift and add, fuel bounded. -/
def gfMulAux : Nat → Nat → Nat → Nat
  | 0, _, _ => 0
  | f + 1, a, b => (if b % 2 = 1 then a else 0) ^^^ gfMulAux f (xtime a) (b / 2)

/-- Reference multiplication in GF(256). -/
def gfMul (a b : Nat) : Nat := gfMulAux 9 a b

/-- Reference power of the field generator alpha (whose value is 2). -/
def alphaPow (i : Nat) : Nat := (List.range i).foldl (fun v _ => xtime v) 1

/-- Reference multiplication of a dense descending coefficient list by the
monic linear factor x plus r, over GF(256). -/
def mulLinear (p : List Nat) (r : Nat) : List Nat :=
  (p ++ [0]).zipWith (fun a b => a ^^^ b) (0 :: p.map (fun c => gfMul c r))

/-- Reference product over GF(256) of the factors x plus alpha to the i for
i from 0 to n minus 1, as dense descending integer coefficients; this is the
product named by the specification for the generator polynomial. -/
def specProduct : Nat → List Nat
  | 0 => [1]
  | n + 1 => mulLinear (specProduct n) (alphaPow n)

/-- Reference discrete log (canonical exponent in 0 to 254, value 1 mapping
to exponent 0, matching the antilog convention of the specification). -/
def discLog (v : Nat) : Nat := logTable.indexOf v

/-- Alpha form of the reference product: one term per nonzero coefficient, in
descending x exponent order, coefficients as canonical alpha exponents. -/
def refGen (n : Nat) : List (Nat × Nat) :=
  (specProduct n).enum.filterMap (fun p =>
    if p.2 = 0 then none else some (discLog p.2, n - p.1))

/-- Write one cell of the module matrix (row, column). -/
def mset (m : List (List Nat)) (r c v : Nat) : List (List Nat) :=
  m.set r ((m.getD r []).set c v)

/-- Read one cell of the module matrix; the default is never reached because
every access of the embedded methods is in bounds. -/
def mget (m : List (List Nat)) (r c : Nat) : Nat :=
  (m.getD r []).getD c 999

/-- QRCodeImage.init_matrix: a size by size grid of 9 (available) cells with
size equal to 4 times (version minus 1) plus 21. -/
def initMatrix (version : Nat) : List (List Nat) :=
  List.replicate (4 * (version - 1) + 21) (List.replicate (4 * (version - 1) + 21) 9)

/-- Fold a matrix transformer over the indices a, a+1, ..., b-1 in order,
mirroring the Python for loops over range(a, b). -/
def foldRange (a b : Nat) (f : List (List Nat) → Nat → List (List Nat))
    (m : List (List Nat)) : List (List Nat) :=
  ((List.range b).drop a).foldl f m

/-- QRCodeImage.position_finder_patterns, statement by statement: the three
finder patterns with their separators, written in source order. -/
def positionFinderPatterns (m0 : List (List Nat)) : List (List Nat) :=
  let size := m0.length
  let boundary := size - 1
  let m := foldRange 0 7 (fun m i =>
      mset (mset (mset (mset m 0 i 1) 6 i 1) i 0 1) i 6 1) m0
  let m := foldRange 1 6 (fun m i =>
      mset (mset (mset (mset m i 1 0) i 5 0) 1 i 0) 5 i 0) m
  let m := foldRange 2 5 (fun m r =>
      foldRange 2 5 (fun m c => mset m r c 1) m) m
  let m := foldRange 0 8 (fun m r => mset (mset m 7 r 0) r 7 0) m
  let m := foldRange 0 7 (fun m i =>
      mset (mset (mset (mset m boundary i 1) (boundary - 6) i 1)
        (boundary - 6 + i) 0 1) (boundary - 6 + i) 6 1) m
  let m := foldRange 1 6 (fun m i =>
      mset (mset (mset (mset m (boundary - 1) i 0) (boundary - 5) i 0)
        (boundary - 6 + i) 1 0) (boundary - 6 + i) 5 0) m
  let m := foldRange (boundary - 4) (boundary - 1) (fun m r =>
      foldRange 2 5 (fun m c => mset m r c 1) m) m
  let m := foldRange 0 8 (fun m r =>
      mset (mset m (boundary - 7) r 0) (boundary - 7 + r) 7 0) m
  let m := foldRange (boundary - 6) boundary (fun m i =>
      mset (mset m 0 i 1) 6 i 1) m
  let m := foldRange 0 7 (fun m r =>
      mset (mset m r (boundary - 6) 1) r boundary 1) m
  let m := foldRange (boundary - 5) boundary (fun m i =>
      mset (mset (mset (mset m (boundary - i) (boundary - 5) 0)
        (boundary - i) (boundary - 1) 0) 1 i 0) 5 i 0) m
  let m := foldRange 2 5 (fun m r =>
      foldRange (boundary - 4) (boundary - 1) (fun m c => mset m r c 1) m) m
  let m := foldRange (boundary - 7) (boundary + 1) (fun m r =>
      mset (mset m 7 r 0) (r - (boundary - 7)) (boundary - 7) 0) m
  m

/-- QRCodeImage.get_alignment_pattern_center, the table from the source. -/
def getAlignmentPatternCenter : Nat → List Nat
  | 1 => [] | 2 => [6, 18] | 3 => [6, 22] | 4 => [6, 26] | 5 => [6, 30] | 6 => [6, 34]
  | 7 => [6, 22, 38] | 8 => [6, 24, 42] | 9 => [6, 26, 46] | 10 => [6, 28, 50]
  | 11 => [6, 30, 54] | 12 => [6, 32, 58] | 13 => [6, 34, 62]
  | 14 => [6, 26, 60, 74] | 15 => [6, 26, 48, 70]
  | 16 => [6, 26, 50, 74] | 17 => [6, 30, 54, 78]
  | 18 => [6, 30, 56, 82] | 19 => [6, 30, 58, 86] | 20 => [6, 43, 62, 90]
  | 21 => [6, 28, 50, 72, 94] | 22 => [6, 26, 50, 74, 98]
  | 23 => [6, 30, 54, 78, 102] | 24 => [6, 34, 58, 80, 106]
  | 25 => [6, 23, 58, 84, 110]
  | 26 => [6, 30, 58, 86, 114] | 27 => [6, 34, 62, 90, 118]
  | 28 => [6, 26, 50, 74, 98, 122] | 29 => [6, 30, 54, 78, 102, 126]
  | 30 => [6, 26, 52, 78, 104, 130] | 31 => [6, 30, 67, 82, 108, 134]
  | 32 => [6, 34, 60, 86, 112, 138] | 33 => [6, 30, 58, 86, 114, 142]
  | 34 => [6, 34, 62, 90, 118, 146]
  | 35 => [6, 30, 54, 78, 102, 126, 150]
  | 36 => [6, 24, 50, 76, 102, 128, 154]
  | 37 => [6, 28, 54, 80, 106, 132, 158]
  | 38 => [6, 32, 58, 84, 110, 136, 162]
  | 39 => [6, 26, 54, 82, 110, 138, 166]
  | 40 => [6, 30, 58, 86, 114, 142, 170]
  | _ => []

/-- QRCodeImage.check_overlap: a dark centre, or any cell of the four border
walks that is not 9 (available), reports an overlap. -/
def checkOverlap (m : List (List Nat)) (row col : Nat) : Bool :=
  if mget m row col = 1 then true
  else
    (List.range 5).any (fun offset =>
      mget m (row - 2) (col - 2 + offset) ≠ 9 ∨
      mget m (row - 2 + offset) (col + 2) ≠ 9 ∨
      mget m (row + 2 - offset) (col - 2) ≠ 9 ∨
      mget m (row + 2) (col + 2 - offset) ≠ 9)

/-- Stamping body of QRCodeImage.position_alignment_pattern: the centre, the
dark 5 by 5 border walks, then the light 3 by 3 ring walks, in source order. -/
def stampAlignment (m0 : List (List Nat)) (row col : Nat) : List (List Nat) :=
  let m := mset m0 row col 1
  let m := foldRange 0 5 (fun m offset =>
      mset (mset (mset (mset m (row - 2) (col - 2 + offset) 1)
        (row - 2 + offset) (col + 2) 1)
        (row + 2 - offset) (col - 2) 1)
        (row + 2) (col + 2 - offset) 1) m
  let m := foldRange 0 3 (fun m offset =>
      mset (mset (mset (mset m (row - 1) (col - 1 + offset) 0)
        (row - 1 + offset) (col + 1) 0)
        (row + 1 - offset) (col - 1) 0)
        (row + 1) (col + 1 - offset) 0) m
  m

/-- QRCodeImage.position_alignment_pattern: for every ordered pair of centre
coordinates, skip when check_overlap reports true, else stamp the pattern. -/
def positionAlignmentPattern (version : Nat) (m0 : List (List Nat)) : List (List Nat) :=
  let centers := getAlignmentPatternCenter version
  centers.foldl (fun m row =>
    centers.foldl (fun m col =>
      if checkOverlap m row col then m else stampAlignment m row col) m) m0

/-- QRCodeImage.position_timing_pattern: alternate 1 and 0 along row 6 and
column 6 for indices 6 to size minus 7, starting with 1. -/
def positionTimingPattern (m0 : List (List Nat)) : List (List Nat) :=
  (((List.range (m0.length - 6)).drop 6).foldl (fun (p : List (List Nat) × Nat) row =>
    (mset (mset p.1 row 6 p.2) 6 row p.2, 1 - p.2)) (m0, 1)).1

/-- QRCodeImage.position_dark_module: the single dark cell at row size minus
8, column 8. -/
def positionDarkModule (m0 : List (List Nat)) : List (List Nat) :=
  mset m0 (m0.length - 8) 8 1

/-- QRCodeImage.reserve_control_modules: for versions 1 to 7 the format
information cells around the top left finder and below the two other finders
(preserving dark cells); for larger versions only the two 3 by 6 version
information blocks of the source (which misplaces them and reserves nothing
else). -/
def reserveControlModules (version : Nat) (m0 : List (List Nat)) : List (List Nat) :=
  let size := m0.length - 1
  if 1 ≤ version ∧ version ≤ 7 then
    let m := foldRange 0 9 (fun m row =>
        let m := mset m 8 row (if mget m 8 row ≠ 1 then 2 else 1)
        mset m row 8 (if mget m row 8 ≠ 1 then 2 else 1)) m0
    foldRange 0 8 (fun m row =>
        let m := mset m 8 (size - row) 2
        mset m (size - row) 8 (if mget m (size - row) 8 = 9 then 2 else 1)) m
  else
    let m := foldRange 0 3 (fun m row =>
        foldRange 0 6 (fun m col => mset m (size - (11 + row)) col 2) m) m0
    foldRange 0 6 (fun m row =>
        foldRange 0 3 (fun m col => mset m row (size - 11 + col) 2) m) m

/-- QRCodeImage.add_control_data: finder patterns, alignment patterns, timing
pattern, dark module, reserved control modules, in source order. -/
def addControlData (version : Nat) : List (List Nat) :=
  reserveControlModules version
    (positionDarkModule
      (positionTimingPattern
        (positionAlignmentPattern version
          (positionFinderPatterns (initMatrix version)))))

/-- Number of cells still in the available (9) state. -/
def countAvailable (m : List (List Nat)) : Nat :=
  (m.map (fun row => (row.filter (fun v => v = 9)).length)).sum

/-- QRErrorCorrectionLevel.get_total_number_of_codewords: the table from the
source; the method ignores the error correction level. -/
def getTotalNumberOfCodewords : Nat → Nat
  | 1 => 26 | 2 => 44 | 3 => 70 | 4 => 100 | 5 => 134 | 6 => 172 | 7 => 196
  | 8 => 242 | 9 => 292 | 10 => 346 | 11 => 404 | 12 => 466 | 13 => 532
  | 14 => 581 | 15 => 655 | 16 => 733 | 17 => 815 | 18 => 901 | 19 => 991
  | 20 => 1085 | 21 => 1156 | 22 => 1258 | 23 => 1364 | 24 => 1474 | 25 => 1588
  | 26 => 1706 | 27 => 1828 | 28 => 1921 | 29 => 2051 | 30 => 2185 | 31 => 2323
  | 32 => 2465 | 33 => 2611 | 34 => 2761 | 35 => 2876 | 36 => 3034 | 37 => 3196
  | 38 => 3362 | 39 => 3532 | 40 => 3706 | _ => 0

/-- QRCodeEncoder.get_remainder_bits: the table from the source. -/
def getRemainderBits : Nat → Nat
  | 1 => 0 | 2 => 7 | 3 => 7 | 4 => 7 | 5 => 7 | 6 => 7 | 7 => 0 | 8 => 0 | 9 => 0
  | 10 => 0 | 11 => 0 | 12 => 0 | 13 => 0 | 14 => 3 | 15 => 3 | 16 => 3 | 17 => 3
  | 18 => 3 | 19 => 3 | 20 => 3 | 21 => 4 | 22 => 4 | 23 => 4 | 24 => 4 | 25 => 4
  | 26 => 4 | 27 => 4 | 28 => 3 | 29 => 3 | 30 => 3 | 31 => 3 | 32 => 3 | 33 => 3
  | 34 => 3 | 35 => 0 | 36 => 0 | 37 => 0 | 38 => 0 | 39 => 0 | 40 => 0 | _ => 999

/-- The 45 symbol set named by the specification for alphanumeric mode:
digits, uppercase letters, space, dollar, percent, asterisk, plus, hyphen,
period, slash, colon.  Written from the words of the specification. -/
def claimAlphanumericChars : List Nat :=
  ((List.range 10).map (fun d => 48 + d)) ++ ((List.range 26).map (fun l => 65 + l)) ++
    [32, 36, 37, 42, 43, 45, 46, 47, 58]

/-- The 46 code points actually accepted by the analyzer, written out
literally: digits, uppercase letters, number sign, percent, asterisk, plus,
hyphen, period, slash, semicolon, colon, space. -/
def amendedAlphanumericSet : List Nat :=
  [48, 49, 50, 51, 52, 53, 54, 55, 56, 57,
   65, 66, 67, 68, 69, 70, 71, 72, 73, 74, 75, 76, 77, 78, 79, 80, 81, 82, 83,
   84, 85, 86, 87, 88, 89, 90,
   35, 37, 42, 43, 45, 46, 47, 59, 58, 32]

/-- Alternating pad codewords as appended by the pad loop: k whole pad bytes
starting at the given counter parity (even gives 11101100, odd 00010001). -/
def altPadBlocks : Nat → Nat → List Bool
  | 0, _ => []
  | k + 1, counter =>
    (if counter % 2 = 0 then padCodeword0 else padCodeword1) ++ altPadBlocks k (counter + 1)

/-- The analyzer character literal coincides with the 46 point list above. -/
theorem analyzerCharsEqAmended : analyzerAlphanumericChars = amendedAlphanumericSet := by
  decide

/-- Membership form of is_alphanumeric. -/
theorem isAlphanumericIffMem (s : List Nat) :
    isAlphanumeric s = true ↔ ∀ c ∈ s, upperChar c ∈ amendedAlphanumericSet := by
  simp only [isAlphanumeric, List.all_eq_true, analyzerCharsEqAmended]
  constructor
  · intro h c hc
    have := h c hc
    simpa [List.contains, List.elem_iff] using this
  · intro h c hc
    have := h c hc
    simpa [List.contains, List.elem_iff] using this

/-- C4, counterexample: the claim demands that the dollar sign (code point
36, a member of the 45 symbol set of the specification) be accepted and that
no symbol outside that set be accepted; the classifier rejects a lone dollar
sign yet accepts the number sign (35) and the semicolon (59), neither of
which is in the claimed set. -/
theorem C4_counterexample :
    (36 ∈ claimAlphanumericChars ∧ isAlphanumeric [36] = false) ∧
      (35 ∉ claimAlphanumericChars ∧ isAlphanumeric [35] = true) ∧
      (59 ∉ claimAlphanumericChars ∧ isAlphanumeric [59] = true) := by
  decide

/-- C4, amended: for every input string, is_alphanumeric returns true exactly
when every character, after uppercasing, lies in the 46 symbol set consisting
of the digits, the letters A to Z, space, and the symbols number sign,
percent, asterisk, plus, hyphen, period, slash, semicolon, colon; the dollar
sign is not accepted. -/
theorem C4_amended_theorem (s : List Nat) :
    isAlphanumeric s = true ↔ ∀ c ∈ s, upperChar c ∈ amendedAlphanumericSet :=
  isAlphanumericIffMem s

/-- C5: the classifier is not total.  For the euro sign (U+20AC), which fails
the numeric, alphanumeric and byte predicates and cannot be encoded in
shift-jis, is_kanji raises a UnicodeEncodeError that escapes analyse, so
analyse neither returns a mode name nor the unsupported marker. -/
theorem C5_theorem :
    isNumeric [0x20AC] = false ∧ isAlphanumeric [0x20AC] = false ∧
      isByte [0x20AC] = false ∧ sjisEncode [0x20AC] = none ∧
      analyse [0x20AC] = .error .unicodeEncodeError :=
  ⟨rfl, rfl, rfl, rfl, rfl⟩

/-- Round trip of one coefficient through antilog and log holds for 1 to 255. -/
theorem roundTripCoeff :
    ∀ c, c < 256 → 1 ≤ c → getLogFromAlpha (alphaNormalize (getAntilogFromAlpha c)) = c := by
  decide

/-- C6, counterexample: the integer coefficient 0 lies in the claimed range 0
to 255, but converting the polynomial with single term 0 times x cubed to
alpha form and back yields coefficient 1, not 0, because the antilog of 0 is
0 by convention and the log of exponent 0 is 1. -/
theorem C6_counterexample :
    convertAlphaToInt (convertIntToAlpha [(0, 3)]) = [(1, 3)] ∧
      convertAlphaToInt (convertIntToAlpha [(0, 3)]) ≠ [(0, 3)] := by
  exact ⟨rfl, by decide⟩

/-- C6, amended: for every integer polynomial all of whose coefficients lie
in 1 to 255, converting to alpha form and back is the identity (coefficient 0
is excluded: it becomes 1). -/
theorem C6_amended_theorem (p : List (Nat × Nat))
    (h : ∀ t ∈ p, 1 ≤ t.1 ∧ t.1 ≤ 255) :
    convertAlphaToInt (convertIntToAlpha p) = p := by
  induction p with
  | nil => rfl
  | cons t rest ih =>
    have ht := h t (List.mem_cons_self t rest)
    have htail := ih (fun x hx => h x (List.mem_cons_of_mem t hx))
    simp only [convertIntToAlpha, convertAlphaToInt, List.map_cons] at htail ⊢
    refine congrArg₂ List.cons ?_ htail
    have hc := roundTripCoeff t.1 (by omega) ht.1
    calc (getLogFromAlpha (alphaNormalize (getAntilogFromAlpha t.1)), t.2)
        = (t.1, t.2) := by rw [hc]
      _ = t := rfl

/-- C6, witness instance for the amended round trip. -/
theorem C6_witness :
    (∀ t ∈ ([(2, 5), (255, 0)] : List (Nat × Nat)), 1 ≤ t.1 ∧ t.1 ≤ 255) ∧
      convertAlphaToInt (convertIntToAlpha [(2, 5), (255, 0)]) = [(2, 5), (255, 0)] :=
  ⟨by decide, C6_amended_theorem _ (by decide)⟩

/-- C9, counterexample: at version 7 (any error correction level) the number
of available cells after add_control_data is 1604, while the claimed formula
gives 8 times 196 plus 0, that is 1568; the source only reserves the format
information cells for versions up to 7 and never the version information
blocks, so the two sides differ. -/
theorem C9_counterexample :
    countAvailable (addControlData 7) = 1604 ∧
      8 * getTotalNumberOfCodewords 7 + getRemainderBits 7 = 1568 ∧
      countAvailable (addControlData 7) ≠
        8 * getTotalNumberOfCodewords 7 + getRemainderBits 7 := by
  refine ⟨by decide, by decide, by decide⟩

/-- C9, amended: for versions 1 to 6 (and every error correction level,
which the total codeword table of the source ignores), after add_control_data
the number of cells still in the available state equals 8 times the total
codeword count plus the remainder bits of the version. -/
theorem C9_amended_theorem :
    ∀ (_level : ECLevel) (v : Nat), v < 7 → 1 ≤ v →
      countAvailable (addControlData v) =
        8 * getTotalNumberOfCodewords v + getRemainderBits v :=
  fun _ => by decide

/-- C9, witness instance at version 1, level M. -/
theorem C9_witness :
    (1 < 7 ∧ 1 ≤ 1) ∧
      countAvailable (addControlData 1) =
        8 * getTotalNumberOfCodewords 1 + getRemainderBits 1 :=
  ⟨by decide, C9_amended_theorem .M 1 (by decide) (by decide)⟩

/-- C10: the byte pair 0x81 0x50 has 16 bit value 0x8150, inside the first
supported range, but its difference from the base 0x8140 is 0x10, whose
hexadecimal string has only two digits; the slice of digits 2 to 4 is empty,
int of the empty string raises ValueError, and encode_kanji propagates the
exception instead of returning a 13 bit encoding. -/
theorem C10_theorem :
    (0x8140 ≤ 0x8150 ∧ 0x8150 ≤ 0x9FFC) ∧
      pyHex (0x8150 - 0x8140) = [1, 0] ∧
      intFromHexSlice [1, 0] 2 4 = .error .valueError ∧
      encodeKanji [0x81, 0x50] = .error .valueError :=
  ⟨by decide, rfl, rfl, rfl⟩

/-- Length of k alternating pad codewords. -/
theorem altPadBlocksLength : ∀ (k c : Nat), (altPadBlocks k c).length = 8 * k := by
  intro k
  induction k with
  | zero => intro c; rfl
  | succ n ih =>
    intro c
    simp only [altPadBlocks, List.length_append, ih]
    by_cases hc : c % 2 = 0 <;> simp [hc, padCodeword0, padCodeword1] <;> omega

/-- The pad loop halts at once when the stream is at or past capacity. -/
theorem padLoopAuxStop (cap fuel : Nat) (s : List Bool) (c : Nat)
    (h : cap ≤ s.length) : padLoopAux cap fuel s c = s := by
  cases fuel with
  | zero => rfl
  | succ f => simp only [padLoopAux, if_neg (by omega : ¬s.length < cap)]

/-- With enough fuel and a gap of exactly 8 k bits, the pad loop appends
exactly k alternating pad codewords. -/
theorem padLoopAuxExact :
    ∀ (k fuel : Nat) (s : List Bool) (c cap : Nat), k ≤ fuel →
      s.length + 8 * k = cap → padLoopAux cap fuel s c = s ++ altPadBlocks k c := by
  intro k
  induction k with
  | zero =>
    intro fuel s c cap _ hlen
    rw [padLoopAuxStop cap fuel s c (by omega)]
    simp [altPadBlocks]
  | succ n ih =>
    intro fuel s c cap hfuel hlen
    obtain ⟨f, rfl⟩ : ∃ f, fuel = f + 1 := ⟨fuel - 1, by omega⟩
    have hblock : (if c % 2 = 0 then padCodeword0 else padCodeword1).length = 8 := by
      by_cases hc : c % 2 = 0 <;> simp [hc, padCodeword0, padCodeword1]
    simp only [padLoopAux, if_pos (by omega : s.length < cap)]
    rw [ih f _ (c + 1) cap (by omega) (by rw [List.length_append, hblock]; omega)]
    simp [altPadBlocks, List.append_assoc]

/-- C2, counterexample: for version 1 at level M the capacity is 8 times 44,
that is 352 bits.  A stream of 351 bits is strictly below capacity, so the
claim asserts a result of exactly 352 bits; the source adds the 1 terminator
zero, reaching a multiple of 8, and then appends 8 more zeros, returning 360
bits. -/
theorem C2_counterexample :
    (List.replicate 351 false).length < 8 * getNumberOfDataCodewords 1 .M ∧
      (addTerminatorAndPadding 1 .M (List.replicate 351 false)).length = 360 ∧
      (addTerminatorAndPadding 1 .M (List.replicate 351 false)).length ≠
        8 * getNumberOfDataCodewords 1 .M := by
  refine ⟨by decide, by decide, by decide⟩

/-- C2, amended: for every encoded bit stream whose length is more than 4
bits below 8 times data_codewords(version, ecc_level), the terminator and
padding step appends no terminator bits, then 8 minus (length mod 8) zero
bits (a full zero byte when the stream is already byte aligned), then the
alternating pad codewords 11101100 and 00010001 starting with 11101100, and
the result has length exactly 8 times data_codewords(version, ecc_level).
Streams within 4 bits of capacity instead overshoot to capacity plus 8. -/
theorem C2_amended_theorem (s : List Bool) (v : Nat) (l : ECLevel)
    (hv1 : 1 ≤ v) (hv2 : v ≤ 40)
    (h : s.length + 4 < 8 * getNumberOfDataCodewords v l) :
    addTerminatorAndPadding v l s =
        s ++ List.replicate (8 - s.length % 8) false ++
          altPadBlocks
            ((8 * getNumberOfDataCodewords v l - (s.length + (8 - s.length % 8))) / 8) 0 ∧
      (addTerminatorAndPadding v l s).length = 8 * getNumberOfDataCodewords v l := by
  have hcap : getNumbersOfBitsPerCodewords v l = 8 * getNumberOfDataCodewords v l := rfl
  have hterm : ¬(0 < ((getNumbersOfBitsPerCodewords v l : Int) - s.length) ∧
      ((getNumbersOfBitsPerCodewords v l : Int) - s.length) ≤ 4) := by
    rw [hcap]; omega
  have hs2len : (s ++ List.replicate (8 - s.length % 8) false).length =
      s.length + (8 - s.length % 8) := by
    simp [List.length_append]
  have hkey : (s.length + (8 - s.length % 8)) +
      8 * ((8 * getNumberOfDataCodewords v l - (s.length + (8 - s.length % 8))) / 8) =
      8 * getNumberOfDataCodewords v l := by omega
  have hdec : addTerminatorAndPadding v l s =
      s ++ List.replicate (8 - s.length % 8) false ++
        altPadBlocks
          ((8 * getNumberOfDataCodewords v l - (s.length + (8 - s.length % 8))) / 8) 0 := by
    simp only [addTerminatorAndPadding, padLoop]
    rw [if_neg hterm]
    exact padLoopAuxExact _ _ _ _ _ (by rw [hcap]; omega) (by rw [hs2len, hcap]; omega)
  refine ⟨hdec, ?_⟩
  rw [hdec]
  simp only [List.length_append, List.length_replicate, altPadBlocksLength]
  omega

/-- C2, witness instance: a 10 bit stream at version 1, level M. -/
theorem C2_witness :
    (1 ≤ 1 ∧ 1 ≤ 40 ∧
        (List.replicate 10 false).length + 4 < 8 * getNumberOfDataCodewords 1 .M) ∧
      (addTerminatorAndPadding 1 .M (List.replicate 10 false) =
          List.replicate 10 false ++
            List.replicate (8 - (List.replicate 10 false : List Bool).length % 8) false ++
            altPadBlocks
              ((8 * getNumberOfDataCodewords 1 .M -
                ((List.replicate 10 false : List Bool).length +
                  (8 - (List.replicate 10 false : List Bool).length % 8))) / 8) 0 ∧
        (addTerminatorAndPadding 1 .M (List.replicate 10 false)).length =
          8 * getNumberOfDataCodewords 1 .M) :=
  ⟨⟨by decide, by decide, by decide⟩,
    C2_amended_theorem (List.replicate 10 false) 1 .M (by decide) (by decide) (by decide)⟩

/-- C3, counterexample: a 352 bit stream already meets the 352 bit capacity
of version 1 at level M; the source reports no error and returns a 360 bit
stream, an over capacity stream delivered as a normal result. -/
theorem C3_counterexample :
    8 * getNumberOfDataCodewords 1 .M ≤ (List.replicate 352 false).length ∧
      (addTerminatorAndPadding 1 .M (List.replicate 352 false)).length = 360 ∧
      8 * getNumberOfDataCodewords 1 .M <
        (addTerminatorAndPadding 1 .M (List.replicate 352 false)).length := by
  refine ⟨by decide, by decide, by decide⟩

/-- C3, amended: for every stream whose length meets or exceeds 8 times
data_codewords(version, ecc_level), the terminator and padding step raises no
error: it appends 8 minus (length mod 8) zero bits and returns the resulting
stream, whose length strictly exceeds the capacity. -/
theorem C3_amended_theorem (s : List Bool) (v : Nat) (l : ECLevel)
    (h : 8 * getNumberOfDataCodewords v l ≤ s.length) :
    addTerminatorAndPadding v l s = s ++ List.replicate (8 - s.length % 8) false ∧
      (addTerminatorAndPadding v l s).length = s.length + (8 - s.length % 8) ∧
      8 * getNumberOfDataCodewords v l < (addTerminatorAndPadding v l s).length := by
  have hcap : getNumbersOfBitsPerCodewords v l = 8 * getNumberOfDataCodewords v l := rfl
  have hterm : ¬(0 < ((getNumbersOfBitsPerCodewords v l : Int) - s.length) ∧
      ((getNumbersOfBitsPerCodewords v l : Int) - s.length) ≤ 4) := by
    rw [hcap]; omega
  have hdec : addTerminatorAndPadding v l s =
      s ++ List.replicate (8 - s.length % 8) false := by
    simp only [addTerminatorAndPadding, padLoop]
    rw [if_neg hterm]
    exact padLoopAuxStop _ _ _ _ (by simp [List.length_append]; omega)
  refine ⟨hdec, ?_, ?_⟩ <;> rw [hdec] <;> simp [List.length_append] <;> omega

/-- C3, witness instance: a 360 bit stream at version 1, level M. -/
theorem C3_witness :
    (8 * getNumberOfDataCodewords 1 .M ≤ (List.replicate 360 false).length) ∧
      (addTerminatorAndPadding 1 .M (List.replicate 360 false) =
          List.replicate 360 false ++
            List.replicate (8 - (List.replicate 360 false : List Bool).length % 8) false ∧
        (addTerminatorAndPadding 1 .M (List.replicate 360 false)).length =
          (List.replicate 360 false : List Bool).length +
            (8 - (List.replicate 360 false : List Bool).length % 8) ∧
        8 * getNumberOfDataCodewords 1 .M <
          (addTerminatorAndPadding 1 .M (List.replicate 360 false)).length) :=
  ⟨by decide, C3_amended_theorem (List.replicate 360 false) 1 .M (by decide)⟩

/-- A term list has coefficient 0 at any exponent it does not carry. -/
theorem coeffAtNotMem (p : List (Nat × Nat)) (x : Nat)
    (h : x ∉ p.map Prod.snd) : coeffAt p x = 0 := by
  unfold coeffAt
  rw [List.find?_eq_none.mpr]
  · rfl
  · intro t ht hx
    exact h (List.mem_map.mpr ⟨t, ht, by simpa using hx⟩)

/-- When both operands list the same x exponents, xor_int introduces no new
exponent. -/
theorem xorIntSndSubset :
    ∀ t1 t2 : List (Nat × Nat), t1.map Prod.snd = t2.map Prod.snd →
      ∀ y ∈ (xorInt t1 t2).map Prod.snd, y ∈ t1.map Prod.snd := by
  intro t1
  induction t1 with
  | nil =>
    intro t2 h y hy
    have : t2 = [] := by
      cases t2 with
      | nil => rfl
      | cons b l => simp at h
    subst this
    simpa [xorInt] using hy
  | cons a l ih =>
    intro t2 h y hy
    cases t2 with
    | nil => simp at h
    | cons b l2 =>
      simp only [List.map_cons, List.cons.injEq] at h
      obtain ⟨hx, hrest⟩ := h
      obtain ⟨ca, xa⟩ := a
      obtain ⟨cb, xb⟩ := b
      simp only at hx
      subst hx
      by_cases hc : ca ^^^ cb > 0
      · simp only [xorInt, if_pos hc, List.map_cons, List.mem_cons] at hy
        rcases hy with hy | hy
        · simp [hy]
        · exact List.mem_cons_of_mem _ (ih l2 hrest y hy)
      · simp only [xorInt, if_neg hc] at hy
        exact List.mem_cons_of_mem _ (ih l2 hrest y hy)

/-- C7, counterexample: with p carrying only x cubed and q only x to the
first, the claim demands that both terms pass through unchanged; instead
xor_int pairs the two terms by position, xoring 5 with 3 and keeping the
exponent of the left operand, and the two argument orders denote different
polynomials (their coefficients at x cubed differ). -/
theorem C7_counterexample :
    xorInt [(5, 3)] [(3, 1)] = [(6, 3)] ∧
      coeffAt (xorInt [(5, 3)] [(3, 1)]) 1 = 0 ∧ coeffAt [(3, 1)] 1 = 3 ∧
      xorInt [(3, 1)] [(5, 3)] = [(6, 1)] ∧
      coeffAt (xorInt [(5, 3)] [(3, 1)]) 3 = 6 ∧
      coeffAt (xorInt [(3, 1)] [(5, 3)]) 3 = 0 := by
  decide

/-- C7, amended: xor_int pairs terms by list position, not by x exponent, so
exponents present in only one operand do not in general pass through.  When
the two operands list the same x exponents in the same order and without
repetition (the shape arising in the division loop), xor_int does combine
terms exponent by exponent, omitting zero results, and the two argument
orders agree. -/
theorem C7_amended_theorem :
    ∀ p q : List (Nat × Nat), p.map Prod.snd = q.map Prod.snd →
      (p.map Prod.snd).Nodup →
      (∀ x, coeffAt (xorInt p q) x = coeffAt p x ^^^ coeffAt q x) ∧
        xorInt p q = xorInt q p := by
  intro p
  induction p with
  | nil =>
    intro q h _
    have : q = [] := by
      cases q with
      | nil => rfl
      | cons b l => simp at h
    subst this
    refine ⟨fun x => ?_, rfl⟩
    show (0 : Nat) = 0 ^^^ 0
    simp
  | cons a l ih =>
    intro q h hnd
    cases q with
    | nil => simp at h
    | cons b l2 =>
      obtain ⟨ca, xa⟩ := a
      obtain ⟨cb, xb⟩ := b
      simp only [List.map_cons, List.cons.injEq] at h
      obtain ⟨hx, hrest⟩ := h
      subst hx
      simp only [List.map_cons, List.nodup_cons] at hnd
      obtain ⟨hxa, hndl⟩ := hnd
      obtain ⟨ihc, ihs⟩ := ih l2 hrest hndl
      constructor
      · intro x
        by_cases hxx : x = xa
        · subst hxx
          by_cases hc : ca ^^^ cb > 0
          · simp [xorInt, if_pos hc, coeffAt, List.find?_cons_of_pos]
          · have hz : ca ^^^ cb = 0 := by omega
            simp only [xorInt, if_neg hc]
            rw [coeffAtNotMem (xorInt l l2) x
                (fun hmem => hxa (xorIntSndSubset l l2 hrest x hmem))]
            simp [coeffAt, List.find?_cons_of_pos, hz]
        · have hfind : ∀ (c : Nat) (r : List (Nat × Nat)),
              coeffAt ((c, xa) :: r) x = coeffAt r x := by
            intro c r
            have hpf : (decide (((c, xa) : Nat × Nat).2 = x)) = false :=
              decide_eq_false (fun hh => hxx hh.symm)
            simp [coeffAt, List.find?_cons, hpf]
          by_cases hc : ca ^^^ cb > 0
          · simp only [xorInt, if_pos hc]
            rw [hfind, hfind, hfind, ihc]
          · simp only [xorInt, if_neg hc]
            rw [hfind, hfind, ihc]
      · by_cases hc : ca ^^^ cb > 0
        · have hc2 : cb ^^^ ca > 0 := by rw [Nat.xor_comm]; exact hc
          simp only [xorInt, if_pos hc, if_pos hc2, Nat.xor_comm ca cb, ihs]
        · have hc2 : ¬(cb ^^^ ca > 0) := by rw [Nat.xor_comm]; exact hc
          simp only [xorInt, if_neg hc, if_neg hc2, ihs]

/-- C7, witness instance: two aligned two term polynomials. -/
theorem C7_witness :
    (([(5, 3), (1, 1)] : List (Nat × Nat)).map Prod.snd =
        ([(3, 3), (7, 1)] : List (Nat × Nat)).map Prod.snd ∧
      (([(5, 3), (1, 1)] : List (Nat × Nat)).map Prod.snd).Nodup) ∧
      coeffAt (xorInt [(5, 3), (1, 1)] [(3, 3), (7, 1)]) 3 =
        coeffAt [(5, 3), (1, 1)] 3 ^^^ coeffAt [(3, 3), (7, 1)] 3 ∧
      xorInt [(5, 3), (1, 1)] [(3, 3), (7, 1)] = xorInt [(3, 3), (7, 1)] [(5, 3), (1, 1)] :=
  ⟨⟨by decide, by decide⟩,
    (C7_amended_theorem [(5, 3), (1, 1)] [(3, 3), (7, 1)] (by decide) (by decide)).1 3,
    (C7_amended_theorem [(5, 3), (1, 1)] [(3, 3), (7, 1)] (by decide) (by decide)).2⟩

/-- The generator polynomial after the factors up to alpha to the 10. -/
def genStage11 : List (Nat × Nat) :=
  [(0, 11), (220, 10), (192, 9), (91, 8), (194, 7), (172, 6), (177, 5), (209, 4),
   (116, 3), (227, 2), (10, 1), (55, 0)]

/-- The generator polynomial after the factors up to alpha to the 20. -/
def genStage21 : List (Nat × Nat) :=
  [(0, 21), (240, 20), (233, 19), (104, 18), (247, 17), (181, 16), (140, 15), (67, 14),
   (98, 13), (85, 12), (200, 11), (210, 10), (115, 9), (148, 8), (137, 7), (230, 6),
   (36, 5), (122, 4), (254, 3), (148, 2), (175, 1), (210, 0)]

/-- The generator polynomial after the factors up to alpha to the 30. -/
def genStage31 : List (Nat × Nat) :=
  [(0, 31), (20, 30), (37, 29), (252, 28), (93, 27), (63, 26), (75, 25), (225, 24),
   (31, 23), (115, 22), (83, 21), (113, 20), (39, 19), (44, 18), (73, 17), (122, 16),
   (137, 15), (118, 14), (119, 13), (144, 12), (248, 11), (248, 10), (55, 9), (1, 8),
   (225, 7), (105, 6), (123, 5), (183, 4), (117, 3), (187, 2), (200, 1), (210, 0)]

/-- The generator polynomial after the factors up to alpha to the 40. -/
def genStage41 : List (Nat × Nat) :=
  [(0, 41), (132, 40), (167, 39), (52, 38), (139, 37), (184, 36), (223, 35), (149, 34),
   (92, 33), (250, 32), (18, 31), (83, 30), (33, 29), (127, 28), (109, 27), (194, 26),
   (7, 25), (211, 24), (242, 23), (109, 22), (66, 21), (86, 20), (169, 19), (87, 18),
   (96, 17), (187, 16), (159, 15), (114, 14), (172, 13), (118, 12), (208, 11), (183, 10),
   (200, 9), (82, 8), (179, 7), (38, 6), (39, 5), (34, 4), (242, 3), (142, 2), (147, 1),
   (55, 0)]

/-- Splitting the multiplication loop of the generator polynomial. -/
theorem genStepsAdd :
    ∀ (a b : Nat) (p : List (Nat × Nat)) (i : Nat),
      genSteps p i (a + b) = genSteps (genSteps p i a) (i + a) b := by
  intro a
  induction a with
  | zero => intro b p i; simp [genSteps]
  | succ m ih =>
    intro b p i
    have e : m + 1 + b = (m + b) + 1 := by omega
    rw [e]
    show genSteps (pmultiply p [(0, 1), (alphaNormalize i, 0)]) (i + 1) (m + b) = _
    rw [ih b _ (i + 1)]
    have e2 : i + 1 + m = i + (m + 1) := by omega
    rw [e2]
    rfl

/-- Ten loop steps from the seed. -/
theorem genStepsStage1 : genSteps [(0, 1), (0, 0)] 1 10 = genStage11 := by decide

/-- Ten further loop steps. -/
theorem genStepsStage2 : genSteps genStage11 11 10 = genStage21 := by decide

/-- Ten further loop steps. -/
theorem genStepsStage3 : genSteps genStage21 21 10 = genStage31 := by decide

/-- Ten further loop steps. -/
theorem genStepsStage4 : genSteps genStage31 31 10 = genStage41 := by decide

/-- Twenty loop steps from the seed. -/
theorem genStepsTo20 : genSteps [(0, 1), (0, 0)] 1 20 = genStage21 := by
  rw [show (20 : Nat) = 10 + 10 from by norm_num, genStepsAdd 10 10, genStepsStage1,
    show (1 : Nat) + 10 = 11 from by norm_num, genStepsStage2]

/-- Thirty loop steps from the seed. -/
theorem genStepsTo30 : genSteps [(0, 1), (0, 0)] 1 30 = genStage31 := by
  rw [show (30 : Nat) = 20 + 10 from by norm_num, genStepsAdd 20 10, genStepsTo20,
    show (1 : Nat) + 20 = 21 from by norm_num, genStepsStage3]

/-- Forty loop steps from the seed. -/
theorem genStepsTo40 : genSteps [(0, 1), (0, 0)] 1 40 = genStage41 := by
  rw [show (40 : Nat) = 30 + 10 from by norm_num, genStepsAdd 30 10, genStepsTo30,
    show (1 : Nat) + 30 = 31 from by norm_num, genStepsStage4]

/-- The generator agrees with the reference product for n up to 11. -/
theorem genChunkA : ∀ n, n < 12 → 1 ≤ n → generateGeneratorPolynomial n = refGen n := by
  decide

/-- The generator agrees with the reference product from stage 11. -/
theorem genChunkB : ∀ k, k < 11 → 1 ≤ k → genSteps genStage11 11 k = refGen (11 + k) := by
  decide

/-- The generator agrees with the reference product from stage 21. -/
theorem genChunkC : ∀ k, k < 11 → 1 ≤ k → genSteps genStage21 21 k = refGen (21 + k) := by
  decide

/-- The generator agrees with the reference product from stage 31. -/
theorem genChunkD : ∀ k, k < 11 → 1 ≤ k → genSteps genStage31 31 k = refGen (31 + k) := by
  decide

/-- The generator agrees with the reference product from stage 41, up to nine
further steps. -/
theorem genChunkE : ∀ k, k < 10 → 1 ≤ k → genSteps genStage41 41 k = refGen (41 + k) := by
  decide

/-- At the fifty first factor the code result differs from the product: the
exponent sum of the constant term reaches 1275, a multiple of 255, and the
normalization of the source leaves it as the unreduced exponent 255 where the
alpha form of the product has exponent 0. -/
theorem genStepsCexStep : genSteps genStage41 41 10 ≠ refGen 51 := by decide

/-- The constant term produced at n equal to 51 carries exponent 255. -/
theorem genStepsCexLast : (genSteps genStage41 41 10).getLast? = some (255, 0) := by decide

/-- The constant term of the reference product at 51 carries exponent 0. -/
theorem genRefCexLast : (refGen 51).getLast? = some (0, 0) := by decide

/-- C8, counterexample: at n equal to 51 (note 51 times 50 over 2 is 1275, a
multiple of 255) generate_generator_polynomial does not return the alpha form
of the product of the 51 linear factors: its constant term keeps the
unreduced exponent 255, while the alpha form of the product (exponents
reduced modulo 255, as the data model of the specification requires) has
exponent 0 there. -/
theorem C8_counterexample :
    generateGeneratorPolynomial 51 ≠ refGen 51 ∧
      (generateGeneratorPolynomial 51).getLast? = some (255, 0) ∧
      (refGen 51).getLast? = some (0, 0) := by
  have h50 : generateGeneratorPolynomial 51 = genSteps genStage41 41 10 := by
    show genSteps [(0, 1), (0, 0)] 1 (51 - 1) = _
    rw [show (51 : Nat) - 1 = 40 + 10 from by norm_num, genStepsAdd 40 10, genStepsTo40,
      show (1 : Nat) + 40 = 41 from by norm_num]
  rw [h50]
  exact ⟨genStepsCexStep, genStepsCexLast, genRefCexLast⟩

/-- C8, amended: for every n from 1 to 50, generate_generator_polynomial(n)
returns the alpha form product of the factors x plus alpha to the i for i
from 0 to n minus 1, a polynomial of degree n in descending exponent order;
in particular the n equal 2 and n equal 5 values of the claim hold.  At n
equal to 51 the constant term exponent is left unreduced (see the
counterexample), so the range cannot be extended. -/
theorem C8_amended_theorem :
    (∀ n, n < 51 → 1 ≤ n → generateGeneratorPolynomial n = refGen n) ∧
      generateGeneratorPolynomial 2 = [(0, 2), (25, 1), (1, 0)] ∧
      generateGeneratorPolynomial 5 =
        [(0, 5), (113, 4), (164, 3), (166, 2), (119, 1), (10, 0)] := by
  refine ⟨?_, by decide, by decide⟩
  intro n hlt hge
  by_cases h12 : n < 12
  · exact genChunkA n h12 hge
  · by_cases h22 : n < 22
    · obtain ⟨k, hk1, hk2, rfl⟩ : ∃ k, 1 ≤ k ∧ k < 11 ∧ n = 11 + k :=
        ⟨n - 11, by omega, by omega, by omega⟩
      show genSteps [(0, 1), (0, 0)] 1 (11 + k - 1) = refGen (11 + k)
      rw [show 11 + k - 1 = 10 + k from by omega, genStepsAdd 10 k, genStepsStage1,
        show (1 : Nat) + 10 = 11 from by norm_num]
      exact genChunkB k hk2 hk1
    · by_cases h32 : n < 32
      · obtain ⟨k, hk1, hk2, rfl⟩ : ∃ k, 1 ≤ k ∧ k < 11 ∧ n = 21 + k :=
          ⟨n - 21, by omega, by omega, by omega⟩
        show genSteps [(0, 1), (0, 0)] 1 (21 + k - 1) = refGen (21 + k)
        rw [show 21 + k - 1 = 20 + k from by omega, genStepsAdd 20 k, genStepsTo20,
          show (1 : Nat) + 20 = 21 from by norm_num]
        exact genChunkC k hk2 hk1
      · by_cases h42 : n < 42
        · obtain ⟨k, hk1, hk2, rfl⟩ : ∃ k, 1 ≤ k ∧ k < 11 ∧ n = 31 + k :=
            ⟨n - 31, by omega, by omega, by omega⟩
          show genSteps [(0, 1), (0, 0)] 1 (31 + k - 1) = refGen (31 + k)
          rw [show 31 + k - 1 = 30 + k from by omega, genStepsAdd 30 k, genStepsTo30,
            show (1 : Nat) + 30 = 31 from by norm_num]
          exact genChunkD k hk2 hk1
        · obtain ⟨k, hk1, hk2, rfl⟩ : ∃ k, 1 ≤ k ∧ k < 10 ∧ n = 41 + k :=
            ⟨n - 41, by omega, by omega, by omega⟩
          show genSteps [(0, 1), (0, 0)] 1 (41 + k - 1) = refGen (41 + k)
          rw [show 41 + k - 1 = 40 + k from by omega, genStepsAdd 40 k, genStepsTo40,
            show (1 : Nat) + 40 = 41 from by norm_num]
          exact genChunkE k hk2 hk1

/-- C8, witness instance at n equal to 5. -/
theorem C8_witness :
    (5 < 51 ∧ 1 ≤ 5) ∧ generateGeneratorPolynomial 5 = refGen 5 :=
  ⟨by decide, C8_amended_theorem.1 5 (by decide) (by decide)⟩

/-- The numeric count field pads to 8 bits, not to the 10 bit width: the
source subtracts the length of the 0b prefixed string from 10. -/
theorem numericCountFieldEqZfill (n : Nat) : numericCountField n = zfill 8 (pyBin n) := by
  unfold numericCountField zfill
  have e : 10 - ((pyBin n).length + 2) = 8 - (pyBin n).length := by omega
  rw [e]

/-- C1, counterexample: the string AC-42 is classified alphanumeric, whose
mode indicator is 0010; the encoder returns only the 28 data bits
0011100111011100111001000010 (matching the expectation of the repository
test suite), and the stream does not begin with the mode indicator. -/
theorem C1_counterexample :
    analyse [65, 67, 45, 52, 50] = .ok .alphanumeric ∧
      encodeDataIntoBitStream [65, 67, 45, 52, 50] =
        .ok [false, false, true, true, true, false, false, true, true, true, false, true,
          true, true, false, false, true, true, true, false, false, true, false, false,
          false, false, true, false] ∧
      ¬([false, false, true, true, true, false, false, true, true, true, false, true,
          true, true, false, false, true, true, true, false, false, true, false, false,
          false, false, true, false].take 4 = modeIndicatorAlphanumeric) :=
  ⟨rfl, rfl, by decide⟩

/-- C1, amended: the bit stream layout actually produced per mode.  Numeric:
mode indicator, then the character count zero padded to 8 bits (two less
than the 10 bit width of the mode), then the digit groups.  Alphanumeric:
the encoded pairs alone, with no mode and no count indicator.  Byte: mode
indicator, then the 8 bit value of the constant 8 (the width of the count
indicator, not the count), then the unpadded binary count, then the data.
Kanji: the unpadded binary of the constant 8, then the mode indicator, then
the 13 bit groups. -/
theorem C1_amended_theorem (s : List Nat) :
    (analyse s = .ok .numeric →
      encodeDataIntoBitStream s =
        .ok (modeIndicatorNumeric ++ zfill 8 (pyBin s.length) ++ numericBody s)) ∧
    (analyse s = .ok .alphanumeric →
      encodeDataIntoBitStream s = encodeAlphanumeric s) ∧
    (analyse s = .ok .byteMode →
      encodeDataIntoBitStream s =
        .ok (modeIndicatorByte ++ [false, false, false, false, true, false, false, false] ++
          pyBin s.length ++ byteBody s)) ∧
    (∀ bytes, analyse s = .ok .kanji → sjisEncode s = some bytes →
      encodeDataIntoBitStream s =
        (kanjiGroups (pairsOf bytes)).map
          (fun d => pyBin 8 ++ modeIndicatorKanji ++ d)) := by
  refine ⟨fun h => ?_, fun h => ?_, fun h => ?_, fun bytes h hb => ?_⟩
  · simp only [encodeDataIntoBitStream, h, bind, Except.bind, pure, Except.pure]
    exact congrArg Except.ok (by rw [encodeNumeric, numericCountFieldEqZfill])
  · simp only [encodeDataIntoBitStream, h, bind, Except.bind]
  · simp only [encodeDataIntoBitStream, h, bind, Except.bind, pure, Except.pure]
    exact congrArg Except.ok (by
      rw [encodeBytes, show zfill 8 (pyBin 8) =
        [false, false, false, false, true, false, false, false] from by decide])
  · have hk : isKanjiCheck s.length bytes = true := by
      unfold analyse at h
      by_cases h1 : isNumeric s
      · rw [if_pos h1] at h; exact absurd h (by simp)
      · rw [if_neg h1] at h
        by_cases h2 : isAlphanumeric s
        · rw [if_pos h2] at h; exact absurd h (by simp)
        · rw [if_neg h2] at h
          by_cases h3 : isByte s
          · rw [if_pos h3] at h; exact absurd h (by simp)
          · rw [if_neg h3] at h
            rw [isKanji, hb] at h
            dsimp only at h
            by_cases h4 : isKanjiCheck s.length bytes
            · exact h4
            · rw [Bool.not_eq_true] at h4
              rw [h4] at h
              exact absurd h (by simp)
    have heven : bytes.length % 2 = 0 := by
      have h5 := hk
      unfold isKanjiCheck at h5
      simp only [Bool.and_eq_true, beq_iff_eq] at h5
      exact h5.2
    simp only [encodeDataIntoBitStream, h, bind, Except.bind, hb]
    simp only [encodeKanji, heven, bind, Except.bind]
    norm_num
    cases kanjiGroups (pairsOf bytes) <;> rfl

/-- C1, witness instance: the numeric conjunct at the string 01234567. -/
theorem C1_witness :
    analyse [48, 49, 50, 51, 52, 53, 54, 55] = .ok .numeric ∧
      encodeDataIntoBitStream [48, 49, 50, 51, 52, 53, 54, 55] =
        .ok (modeIndicatorNumeric ++
          zfill 8 (pyBin ([48, 49, 50, 51, 52, 53, 54, 55] : List Nat).length) ++
          numericBody [48, 49, 50, 51, 52, 53, 54, 55]) :=
  ⟨rfl, (C1_amended_theorem [48, 49, 50, 51, 52, 53, 54, 55]).1 rfl⟩
